import Mathlib

/-!
Shallow embedding of `src/src/bloomd/filter_manager.c` (the bloomd filter manager).

The manager owns a heap of MVCC versions and filter wrappers.  Pointers are
modelled as indices into the `versions` / `wrappers` lists of a `MgrState`; C
writes through a pointer become `List.set` at the corresponding index.  Freeing
is modelled by recording the freed index (`destroyedVersions`, `freedWrappers`);
the contents of freed memory are irrelevant to every property proved here.

Code that the manager calls but that is not part of this repository snapshot
(`filter.c`, the engine; `hashmap.c`, the generic hash map) is modelled from the
spec, as marked on each definition.

Out-of-memory and engine failures are modelled by explicit Boolean oracle
parameters (`allocFail`, `engineFail`, `putOk`) mirroring each failure check in
the source.
-/

namespace Bloomd

/-- Modelled from the spec: the configuration carried by the manager (§6).  It
holds the data directory (modelled as the list of directory entry names, which
is what `scandir` yields to `load_existing_filters`) and the engine defaults,
of which only `in_memory` is observable to the manager. -/
structure BloomConfig where
  in_memory : Bool := false
  data_dir : List String := []
  deriving DecidableEq, Inhabited

/-- Modelled from the spec: the bloom filter engine handle (`filter.c` is
outside `src/`, §6 gives its contract).  `keys` is the set of keys added so
far; `containsErrKeys` / `addErrKeys` are the keys on which the engine reports
an internal error (-1), letting theorems quantify over arbitrary engine-error
behavior; `proxied` is the `is_proxied` state; `erased` records that `delete`
removed the on-disk state; `discover` records the `discover` argument the
handle was constructed with. -/
structure BloomFilter where
  keys : List String := []
  proxied : Bool := false
  in_memory : Bool := false
  erased : Bool := false
  discover : Bool := false
  containsErrKeys : List String := []
  addErrKeys : List String := []
  deriving DecidableEq, Inhabited

/-- Modelled from the spec: `contains(handle, key) → 0 | 1 | -1 (error)`. -/
def bloomf_contains (f : BloomFilter) (k : String) : Int :=
  if f.containsErrKeys.contains k then -1
  else if f.keys.contains k then 1 else 0

/-- Modelled from the spec: `add(handle, key) → 0 (already present) | 1 (newly
added) | -1 (error)`; adding mutates the handle. -/
def bloomf_add (f : BloomFilter) (k : String) : Int × BloomFilter :=
  if f.addErrKeys.contains k then (-1, f)
  else if f.keys.contains k then (0, f)
  else (1, { f with keys := k :: f.keys })

/-- Modelled from the spec: `is_proxied(handle)` — no in-memory representation
resident. -/
def bloomf_is_proxied (f : BloomFilter) : Bool := f.proxied

/-- Modelled from the spec: `flush(handle)` persists; it has no effect that the
manager can observe, so the model returns the handle unchanged. -/
def bloomf_flush (f : BloomFilter) : BloomFilter := f

/-- Modelled from the spec: `close(handle)` — flush and release memory, keep
on-disk state; afterwards the filter is proxied. -/
def bloomf_close (f : BloomFilter) : BloomFilter := { f with proxied := true }

/-- Modelled from the spec: `delete(handle)` — remove on-disk state. -/
def bloomf_delete (f : BloomFilter) : BloomFilter :=
  { f with proxied := true, erased := true }

/-- Modelled from the spec: the engine constructor
`init(config, name, discover) → handle | error` (§6).  `fail` is the oracle for
constructor failure.  The handle records the `discover` argument it was built
with so that theorems can observe which mode construction used. -/
def init_bloom_filter (config : BloomConfig) (filter_name : String)
    (discover : Bool) (fail : Bool) : Option BloomFilter :=
  let _ := filter_name
  if fail then none
  else some { in_memory := config.in_memory, discover := discover }

/-- `bloom_filter_wrapper` from the source: per-filter state. -/
structure Wrapper where
  is_active : Bool := false
  is_hot : Bool := false
  should_delete : Bool := false
  filter : BloomFilter := {}
  custom : Option BloomConfig := none
  deriving DecidableEq, Inhabited

/-- `filtmgr_vsn` from the source: one MVCC snapshot.  `filter_map` maps filter
names to wrapper ids, `deleted` holds at most one wrapper id removed from the
index when this version was superseded, `prev` is the id of the previous
version. -/
structure Version where
  is_hot : Bool := false
  vsn : Nat := 0
  filter_map : List (String × Nat) := []
  deleted : Option Nat := none
  prev : Option Nat := none
  deriving DecidableEq, Inhabited

/-- `bloom_filtmgr` from the source, together with the heap the C code keeps
behind pointers: `versions` and `wrappers` are the allocated objects, addressed
by index; `latest` is the index of the currently published version.
`destroyedVersions` and `freedWrappers` record calls to `destroy_version` and
to freeing a wrapper (the freed object's stale contents stay in the list, as
freed memory would). -/
structure MgrState where
  config : BloomConfig := {}
  latest : Nat := 0
  versions : List Version := []
  wrappers : List Wrapper := []
  destroyedVersions : List Nat := []
  freedWrappers : List Nat := []
  deriving DecidableEq, Inhabited

/-- Dereference a version pointer. -/
def MgrState.version (s : MgrState) (i : Nat) : Version := s.versions.getD i {}

/-- Dereference a wrapper pointer. -/
def MgrState.wrapper (s : MgrState) (i : Nat) : Wrapper := s.wrappers.getD i {}

/-- Write through a version pointer. -/
def MgrState.setVersion (s : MgrState) (i : Nat) (v : Version) : MgrState :=
  { s with versions := s.versions.set i v }

/-- Write through a wrapper pointer. -/
def MgrState.setWrapper (s : MgrState) (i : Nat) (w : Wrapper) : MgrState :=
  { s with wrappers := s.wrappers.set i w }

/-- `vsn->is_hot = 1`. -/
def MgrState.setVsnHot (s : MgrState) (i : Nat) : MgrState :=
  s.setVersion i { s.version i with is_hot := true }

/-- Modelled from the spec: `hashmap_get` of the generic hash map (`hashmap.c`
is outside `src/`; the spec describes the index as a mapping from unique string
keys to wrappers).  The map is embedded as an association list. -/
def hm_get (m : List (String × Nat)) (k : String) : Option Nat :=
  (m.find? (fun p => p.1 == k)).map (fun p => p.2)

/-- Modelled from the spec: `hashmap_put` — insert or overwrite the unique
binding for `k`. -/
def hm_put (m : List (String × Nat)) (k : String) (v : Nat) : List (String × Nat) :=
  if m.any (fun p => p.1 == k) then m.map (fun p => if p.1 == k then (k, v) else p)
  else (k, v) :: m

/-- Modelled from the spec: `hashmap_delete` — remove the binding for `k`. -/
def hm_delete (m : List (String × Nat)) (k : String) : List (String × Nat) :=
  m.filter (fun p => p.1 != k)

/-- `take_filter` from the source: mark the version hot, look the name up in
its index, and return the wrapper only if it is active. -/
def take_filter (s : MgrState) (vsnId : Nat) (filter_name : String) :
    MgrState × Option Nat :=
  let s1 := s.setVsnHot vsnId
  match hm_get (s1.version vsnId).filter_map filter_name with
  | none => (s1, none)
  | some wid => if (s1.wrapper wid).is_active then (s1, some wid) else (s1, none)

/-- Spec-side predicate used to state the claims: the latest version's index
currently binds `filter_name` to an active wrapper. -/
def hasActive (s : MgrState) (filter_name : String) : Bool :=
  match hm_get (s.version s.latest).filter_map filter_name with
  | none => false
  | some wid => (s.wrapper wid).is_active

/-- The key-checking loop of `filtmgr_check_keys`: store each `contains` result
at index `i` of the output buffer until one call reports -1; the final return
code `(res == -1) ? -2 : 0` is folded into the loop's return value. -/
def check_keys_loop (f : BloomFilter) (keys : List String) (result : List Int)
    (i : Nat) : List Int × Int :=
  match keys with
  | [] => (result, 0)
  | k :: rest =>
    let res := bloomf_contains f k
    if res == -1 then (result, -2)
    else check_keys_loop f rest (result.set i res) (i + 1)

/-- The key-setting loop of `filtmgr_set_keys`, threading the mutated engine
handle. -/
def set_keys_loop (f : BloomFilter) (keys : List String) (result : List Int)
    (i : Nat) : BloomFilter × List Int × Int :=
  match keys with
  | [] => (f, result, 0)
  | k :: rest =>
    let r := bloomf_add f k
    if r.1 == -1 then (r.2, result, -2)
    else set_keys_loop r.2 rest (result.set i r.1) (i + 1)

/-- `filtmgr_check_keys` from the source. -/
def filtmgr_check_keys (s : MgrState) (filter_name : String) (keys : List String)
    (result : List Int) : MgrState × List Int × Int :=
  let current := s.latest
  let t := take_filter s current filter_name
  match t.2 with
  | none => (t.1, result, -1)
  | some wid =>
    let w := t.1.wrapper wid
    let r := check_keys_loop w.filter keys result 0
    (t.1.setWrapper wid { w with is_hot := true }, r.1, r.2)

/-- `filtmgr_set_keys` from the source. -/
def filtmgr_set_keys (s : MgrState) (filter_name : String) (keys : List String)
    (result : List Int) : MgrState × List Int × Int :=
  let current := s.latest
  let t := take_filter s current filter_name
  match t.2 with
  | none => (t.1, result, -1)
  | some wid =>
    let w := t.1.wrapper wid
    let r := set_keys_loop w.filter keys result 0
    (t.1.setWrapper wid { w with filter := r.1, is_hot := true }, r.2.1, r.2.2)

/-- `filtmgr_flush_filter` from the source.  `bloomf_flush` has no observable
effect in the engine model, and the source writes nothing back to the wrapper. -/
def filtmgr_flush_filter (s : MgrState) (filter_name : String) : MgrState × Int :=
  let t := take_filter s s.latest filter_name
  match t.2 with
  | none => (t.1, -1)
  | some _ => (t.1, 0)

/-- `filtmgr_unmap_filter` from the source: close the engine only when the
filter is not an in-memory filter. -/
def filtmgr_unmap_filter (s : MgrState) (filter_name : String) : MgrState × Int :=
  let t := take_filter s s.latest filter_name
  match t.2 with
  | none => (t.1, -1)
  | some wid =>
    let w := t.1.wrapper wid
    if !w.filter.in_memory then
      (t.1.setWrapper wid { w with filter := bloomf_close w.filter }, 0)
    else (t.1, 0)

/-- `create_new_version` from the source: build a fresh version whose index is
a copy of the latest one, `vsn` incremented, `prev` pointing at the latest,
`is_hot` raised.  The two allocation-failure branches of the source
(`hashmap_init` failing, and `copy_hash_entries` failing inside
`hashmap_iter`), both of which return NULL, are modelled by the single
`allocFail` oracle. -/
def create_new_version (s : MgrState) (allocFail : Bool) : MgrState × Option Nat :=
  if allocFail then (s, none)
  else
    let current := s.latest
    let v : Version := { is_hot := true, vsn := (s.version current).vsn + 1,
                         filter_map := (s.version current).filter_map,
                         deleted := none, prev := some current }
    ({ s with versions := s.versions ++ [v] }, some s.versions.length)

/-- `destroy_version` from the source: frees the index container and the
version struct; the model records the freed id. -/
def destroy_version (s : MgrState) (i : Nat) : MgrState :=
  { s with destroyedVersions := i :: s.destroyedVersions }

/-- `delete_filter` from the source: final teardown of a wrapper — engine
`delete` if `should_delete`, else engine `close`; then the wrapper is freed
(recorded in `freedWrappers`). -/
def delete_filter (s : MgrState) (wid : Nat) : MgrState :=
  let filt := s.wrapper wid
  let f := if filt.should_delete then bloomf_delete filt.filter
           else bloomf_close filt.filter
  { s.setWrapper wid { filt with filter := f } with
      freedWrappers := wid :: s.freedWrappers }

/-- `add_filter` from the source: build a wrapper (`is_active` set, `is_hot`
as given, `should_delete` clear, owning the config when it differs from the
manager default), construct the engine handle passing `is_hot` as the
`discover` argument ("Only discover if it is hot"), and insert it into the
given version's index.  `engineFail` is the constructor-failure oracle and
`putOk` the insertion (allocation) oracle. -/
def add_filter (s : MgrState) (vsnId : Nat) (filter_name : String)
    (config : BloomConfig) (is_hot : Bool) (engineFail : Bool) (putOk : Bool) :
    MgrState × Int :=
  match init_bloom_filter config filter_name is_hot engineFail with
  | none => (s, -1)
  | some f =>
    let filt : Wrapper :=
      { is_active := true, is_hot := is_hot, should_delete := false, filter := f,
        custom := if config = s.config then none else some config }
    if putOk then
      let wid := s.wrappers.length
      let s1 := { s with wrappers := s.wrappers ++ [filt] }
      let s2 := s1.setVersion vsnId
        { s1.version vsnId with
            filter_map := hm_put (s1.version vsnId).filter_map filter_name wid }
      (s2, 0)
    else (s, -1)

/-- `filtmgr_create_filter` from the source.  Note that the source never
checks `create_new_version` for NULL: when the allocation fails it passes the
NULL version straight to `add_filter`, which dereferences it in `hashmap_put`;
the model returns `none` for that undefined behavior. -/
def filtmgr_create_filter (s : MgrState) (filter_name : String)
    (custom_config : Option BloomConfig) (allocFail : Bool) (engineFail : Bool)
    (putOk : Bool) : Option (MgrState × Int) :=
  let latest := s.latest
  let s1 := s.setVsnHot latest
  match hm_get (s1.version latest).filter_map filter_name with
  | some _ => some (s1, -1)
  | none =>
    let c := create_new_version s1 allocFail
    let config := custom_config.getD c.1.config
    match c.2 with
    | none => none
    | some newId =>
      let a := add_filter c.1 newId filter_name config true engineFail putOk
      if a.2 != 0 then some (destroy_version a.1 newId, -2)
      else some ({ a.1 with latest := newId }, 0)

/-- `filtmgr_drop_filter` from the source: deactivate the wrapper and mark it
for on-disk deletion, publish a copy of the index without the name, and park
the wrapper in the superseded version's `deleted` slot.  As in
`filtmgr_create_filter`, a NULL result of `create_new_version` is dereferenced
by `hashmap_delete` (modelled as `none`). -/
def filtmgr_drop_filter (s : MgrState) (filter_name : String) (allocFail : Bool) :
    Option (MgrState × Int) :=
  let current := s.latest
  let t := take_filter s current filter_name
  match t.2 with
  | none => some (t.1, -1)
  | some wid =>
    let s2 := t.1.setWrapper wid
      { t.1.wrapper wid with is_active := false, should_delete := true }
    let c := create_new_version s2 allocFail
    match c.2 with
    | none => none
    | some newId =>
      let s4 := c.1.setVersion newId
        { c.1.version newId with
            filter_map := hm_delete (c.1.version newId).filter_map filter_name }
      let s5 := s4.setVersion current { s4.version current with deleted := some wid }
      some ({ s5 with latest := newId }, 0)

/-- `filtmgr_clear_filter` from the source: like drop, but only when the
engine is proxied, and with `should_delete` cleared so final teardown closes
instead of erasing. -/
def filtmgr_clear_filter (s : MgrState) (filter_name : String) (allocFail : Bool) :
    Option (MgrState × Int) :=
  let current := s.latest
  let t := take_filter s current filter_name
  match t.2 with
  | none => some (t.1, -1)
  | some wid =>
    if !bloomf_is_proxied (t.1.wrapper wid).filter then some (t.1, -2)
    else
      let s2 := t.1.setWrapper wid
        { t.1.wrapper wid with is_active := false, should_delete := false }
      let c := create_new_version s2 allocFail
      match c.2 with
      | none => none
      | some newId =>
        let s4 := c.1.setVersion newId
          { c.1.version newId with
              filter_map := hm_delete (c.1.version newId).filter_map filter_name }
        let s5 := s4.setVersion current { s4.version current with deleted := some wid }
        some ({ s5 with latest := newId }, 0)

/-- `filter_map_list_cb` from the source: emit active wrappers (new nodes are
pushed at the head of the result list). -/
def filter_map_list_cb (head : List String) (key : String) (w : Wrapper) :
    List String :=
  if w.is_active then key :: head else head

/-- `filtmgr_list_filters` from the source. -/
def filtmgr_list_filters (s : MgrState) : MgrState × List String :=
  let current := s.latest
  let s1 := s.setVsnHot current
  (s1, (s1.version current).filter_map.foldl
    (fun acc p => filter_map_list_cb acc p.1 (s1.wrapper p.2)) [])

/-- `filter_map_list_cold_cb` from the source: a hot wrapper has its flag
lowered and is skipped; a proxied wrapper is skipped; otherwise the wrapper is
emitted (without touching its flags). -/
def filter_map_list_cold_cb (s : MgrState) (head : List String) (key : String)
    (wid : Nat) : MgrState × List String :=
  let filt := s.wrapper wid
  if filt.is_hot then (s.setWrapper wid { filt with is_hot := false }, head)
  else if bloomf_is_proxied filt.filter then (s, head)
  else (s, key :: head)

/-- `filtmgr_list_cold_filters` from the source. -/
def filtmgr_list_cold_filters (s : MgrState) : MgrState × List String :=
  let current := s.latest
  let s1 := s.setVsnHot current
  (s1.version current).filter_map.foldl
    (fun acc p => filter_map_list_cold_cb acc.1 acc.2 p.1 p.2) (s1, [])

/-- `FOLDER_PREFIX_LEN` from the source (`sizeof("bloomd.") - 1`). -/
def FOLDER_PREFIX_LEN : Nat := 7

/-- `filter_bloomd_folders` from the source: the `scandir` predicate.  Names
shorter than 8 bytes are rejected before the `strncmp` prefix comparison
(which compares the first `FOLDER_PREFIX_LEN` = 7 bytes). -/
def filter_bloomd_folders (name : String) : Bool :=
  let name_len := name.toList.length
  if name_len < 8 then false
  else if name.toList.take FOLDER_PREFIX_LEN = "bloomd.".toList then true
  else false

/-- `load_existing_filters` from the source: for every directory entry that
`filter_bloomd_folders` accepts, add a filter named by the entry minus the
7-byte prefix, with the manager default config and `is_hot = 0`.  Failures of
individual `add_filter` calls are logged and skipped in the source; the model
takes the no-failure case (`engineFail = false`, `putOk = true`). -/
def load_existing_filters (s : MgrState) : MgrState :=
  let namelist := s.config.data_dir.filter (fun n => filter_bloomd_folders n)
  namelist.foldl
    (fun acc folder_name =>
      let filter_name := folder_name.drop FOLDER_PREFIX_LEN
      (add_filter acc acc.latest filter_name acc.config false false true).1) s

/-- `init_filter_manager` from the source: allocate the manager and the empty
initial version (`calloc` zeroes `vsn`, `is_hot`, `deleted`, `prev`), then
discover existing filters.  The `hashmap_init` failure branch (return -1) is
not modelled. -/
def init_filter_manager (config : BloomConfig) : MgrState :=
  let vsn0 : Version := {}
  load_existing_filters
    { config := config, latest := 0, versions := [vsn0], wrappers := [] }

/-- `clean_old_versions` from the source, minus the cooldown sleeps (real
time and the concurrent hot/cold handshake are not modelled): recurse into
`prev` first, final-delete any wrapper parked in `deleted`, destroy the
version.  `fuel` bounds the recursion (the C recursion terminates because the
`prev` chain is finite and acyclic). -/
def clean_old_versions (s : MgrState) (fuel : Nat) (vid : Nat) : MgrState :=
  match fuel with
  | 0 => s
  | Nat.succ fuel =>
    let s1 := match (s.version vid).prev with
      | some p => clean_old_versions s fuel p
      | none => s
    let s2 := match (s1.version vid).deleted with
      | some wid => delete_filter s1 wid
      | none => s1
    destroy_version s2 vid

/-- One iteration of the loop body of `filtmgr_thread_main` from the source,
minus the sleeps: when the published version number changed, clean the old
chain and sever the latest version's `prev` link.  (In the source a NULL
`current->prev` would be dereferenced by `clean_old_versions`, but that case
is unreachable: `prev` is NULL only when `vsn` still equals `last_vsn`.) -/
def filtmgr_thread_step (s : MgrState) (last_vsn : Nat) : MgrState × Nat :=
  let current := s.latest
  if (s.version current).vsn = last_vsn then (s, last_vsn)
  else
    let s1 := match (s.version current).prev with
      | some p => clean_old_versions s s.versions.length p
      | none => s
    let s2 := s1.setVersion current { s1.version current with prev := none }
    (s2, (s.version current).vsn)

/-! ### Helper lemmas about the heap accessors -/

theorem getD_set {α : Type} (l : List α) (i j : Nat) (v d : α) :
    (l.set i v).getD j d = if i = j ∧ j < l.length then v else l.getD j d := by
  induction l generalizing i j with
  | nil => simp
  | cons a t ih =>
    cases i with
    | zero =>
      cases j with
      | zero => simp
      | succ j => simp [Nat.succ_lt_succ_iff]
    | succ i =>
      cases j with
      | zero => simp
      | succ j =>
        show (a :: t.set i v).getD (j + 1) d = _
        rw [List.getD_cons_succ, ih, List.getD_cons_succ]
        by_cases hij : i = j
        · subst hij
          simp [Nat.succ_lt_succ_iff]
        · have hij' : ¬ (i + 1 = j + 1) := by omega
          simp [hij, hij']

@[simp] theorem latest_setVersion (s : MgrState) (i : Nat) (v : Version) :
    (s.setVersion i v).latest = s.latest := rfl

@[simp] theorem wrapper_setVersion (s : MgrState) (i j : Nat) (v : Version) :
    (s.setVersion i v).wrapper j = s.wrapper j := rfl

@[simp] theorem config_setVersion (s : MgrState) (i : Nat) (v : Version) :
    (s.setVersion i v).config = s.config := rfl

@[simp] theorem latest_setWrapper (s : MgrState) (i : Nat) (w : Wrapper) :
    (s.setWrapper i w).latest = s.latest := rfl

@[simp] theorem version_setWrapper (s : MgrState) (i j : Nat) (w : Wrapper) :
    (s.setWrapper i w).version j = s.version j := rfl

@[simp] theorem config_setWrapper (s : MgrState) (i : Nat) (w : Wrapper) :
    (s.setWrapper i w).config = s.config := rfl

@[simp] theorem latest_setVsnHot (s : MgrState) (i : Nat) :
    (s.setVsnHot i).latest = s.latest := rfl

@[simp] theorem wrapper_setVsnHot (s : MgrState) (i j : Nat) :
    (s.setVsnHot i).wrapper j = s.wrapper j := rfl

theorem version_setVersion (s : MgrState) (i j : Nat) (v : Version) :
    (s.setVersion i v).version j =
      if i = j ∧ j < s.versions.length then v else s.version j := by
  show (s.versions.set i v).getD j {} = _
  rw [getD_set]
  rfl

theorem version_setVersion_self (s : MgrState) (i : Nat) (v : Version)
    (h : i < s.versions.length) : (s.setVersion i v).version i = v := by
  simp [version_setVersion, h]

@[simp] theorem filter_map_setVsnHot (s : MgrState) (i j : Nat) :
    ((s.setVsnHot i).version j).filter_map = (s.version j).filter_map := by
  rw [MgrState.setVsnHot, version_setVersion]
  split
  · rename_i h
    rw [h.1]
  · rfl

@[simp] theorem deleted_setVsnHot (s : MgrState) (i j : Nat) :
    ((s.setVsnHot i).version j).deleted = (s.version j).deleted := by
  rw [MgrState.setVsnHot, version_setVersion]
  split
  · rename_i h
    rw [h.1]
  · rfl

@[simp] theorem vsn_setVsnHot (s : MgrState) (i j : Nat) :
    ((s.setVsnHot i).version j).vsn = (s.version j).vsn := by
  rw [MgrState.setVsnHot, version_setVersion]
  split
  · rename_i h
    rw [h.1]
  · rfl

theorem wrapper_setWrapper (s : MgrState) (i j : Nat) (w : Wrapper) :
    (s.setWrapper i w).wrapper j =
      if i = j ∧ j < s.wrappers.length then w else s.wrapper j := by
  show (s.wrappers.set i w).getD j {} = _
  rw [getD_set]
  rfl

theorem wrapper_setWrapper_self (s : MgrState) (i : Nat) (w : Wrapper)
    (h : i < s.wrappers.length) : (s.setWrapper i w).wrapper i = w := by
  simp [wrapper_setWrapper, h]

/-- An active wrapper is a real heap object (the default object a dangling
index dereferences to is inactive). -/
theorem lt_wrappers_length_of_active (s : MgrState) (i : Nat)
    (h : (s.wrapper i).is_active = true) : i < s.wrappers.length := by
  by_contra hlt
  rw [MgrState.wrapper, List.getD_eq_default] at h
  · exact Bool.noConfusion h
  · exact Nat.le_of_not_lt hlt

@[simp] theorem versions_length_setVsnHot (s : MgrState) (i : Nat) :
    (s.setVsnHot i).versions.length = s.versions.length := by
  simp [MgrState.setVsnHot, MgrState.setVersion]

@[simp] theorem versions_length_setWrapper (s : MgrState) (i : Nat) (w : Wrapper) :
    (s.setWrapper i w).versions = s.versions := rfl

@[simp] theorem wrappers_length_setVersion (s : MgrState) (i : Nat) (v : Version) :
    (s.setVersion i v).wrappers = s.wrappers := rfl

@[simp] theorem wrappers_setVsnHot (s : MgrState) (i : Nat) :
    (s.setVsnHot i).wrappers = s.wrappers := rfl

@[simp] theorem wrappers_length_setWrapper (s : MgrState) (i : Nat) (w : Wrapper) :
    (s.setWrapper i w).wrappers.length = s.wrappers.length := by
  simp [MgrState.setWrapper]

theorem hm_get_hm_delete (m : List (String × Nat)) (k : String) :
    hm_get (hm_delete m k) k = none := by
  rw [hm_get]
  have hall : ∀ p ∈ hm_delete m k, ¬ ((p.1 == k) = true) := by
    intro p hp
    rw [hm_delete] at hp
    have hmem := List.of_mem_filter hp
    simp only [bne_iff_ne, ne_eq] at hmem
    simp [hmem]
  rw [List.find?_eq_none.mpr hall]
  rfl

/-- `take_filter` on a name with no active binding in the given version: the
version is still marked hot and the lookup returns `none`. -/
theorem take_filter_eq_none (s : MgrState) (n : String)
    (h : hasActive s n = false) :
    take_filter s s.latest n = (s.setVsnHot s.latest, none) := by
  rw [take_filter]
  rw [hasActive] at h
  simp only [filter_map_setVsnHot]
  cases hg : hm_get (s.version s.latest).filter_map n with
  | none => rfl
  | some wid =>
    rw [hg] at h
    have h' : (s.wrapper wid).is_active = false := h
    simp only [wrapper_setVsnHot]
    simp [h']

/-- C9 counterexample input: the 7-character entry name `bloomd.` begins with
the 7-character prefix but is rejected by the classifier. -/
theorem folder_filter_short_name_cx :
    filter_bloomd_folders "bloomd." = false ∧
      "bloomd.".toList.take FOLDER_PREFIX_LEN = "bloomd.".toList := by
  constructor
  · decide
  · decide

/-- C9 (amended): the discovery scan classifies an entry as a filter folder
iff its name is the literal prefix `bloomd.` followed by at least one further
character (equivalently: it begins with the prefix AND has length at least 8);
the bare 7-character name `bloomd.` is rejected by the length check. -/
theorem folder_filter_iff (name : String) :
    filter_bloomd_folders name = true ↔
      ∃ c rest, name.toList = "bloomd.".toList ++ c :: rest := by
  rw [filter_bloomd_folders]
  constructor
  · intro h
    split at h
    · exact absurd h (by simp)
    · rename_i hlen
      split at h
      · rename_i htake
        rcases hdrop : name.toList.drop FOLDER_PREFIX_LEN with _ | ⟨c, rest⟩
        · exfalso
          have hzero : name.toList.length - FOLDER_PREFIX_LEN = 0 := by
            rw [← List.length_drop, hdrop]
            rfl
          have h8 : 8 ≤ name.toList.length := Nat.le_of_not_lt hlen
          have h7 : FOLDER_PREFIX_LEN = 7 := rfl
          omega
        · refine ⟨c, rest, ?_⟩
          rw [← htake, ← hdrop, List.take_append_drop]
      · exact absurd h (by simp)
  · rintro ⟨c, rest, hname⟩
    have hlen : name.toList.length = 8 + rest.length := by
      rw [hname]
      simp
      omega
    have hnotlt : ¬ name.toList.length < 8 := by omega
    rw [if_neg hnotlt]
    have htake : name.toList.take FOLDER_PREFIX_LEN = "bloomd.".toList := by
      rw [hname]
      have h7 : FOLDER_PREFIX_LEN = "bloomd.".toList.length := by decide
      rw [h7, List.take_left]
    rw [if_pos htake]

/-- C2 counterexample input: a data directory holding `bloomd.b`. -/
def cfg2ex : BloomConfig := { data_dir := ["bloomd.b"] }

/-- C2 counterexample: after `init_filter_manager` over a directory holding
`bloomd.b`, the wrapper registered for `b` was constructed with
`discover = false` (the source passes the wrapper's `is_hot`, which is 0
during discovery, as the `discover` argument of `init_bloom_filter`), not
`discover = true` as the claim states. -/
theorem discovery_discover_false_cx :
    hm_get (((init_filter_manager cfg2ex).version 0).filter_map) "b" = some 0 ∧
      ((init_filter_manager cfg2ex).wrapper 0).filter.discover = false ∧
      ((init_filter_manager cfg2ex).wrapper 0).is_hot = false := by
  refine ⟨?_, ?_, ?_⟩ <;> decide

/-- C2 (amended): every wrapper created by directory discovery at init has
`is_hot = false` and was constructed by `init_bloom_filter` with
`discover = false` (the constructor's `discover` argument is the wrapper's
`is_hot`, which is 0 for existing filters). -/
theorem discovery_wrappers_cold_no_discover (config : BloomConfig) :
    (init_filter_manager config).wrappers.all
      (fun w => !w.is_hot && !w.filter.discover) = true := by
  rw [init_filter_manager, load_existing_filters]
  generalize (({ config := config, latest := 0, versions := [{}], wrappers := [] } :
      MgrState).config.data_dir.filter (fun n => filter_bloomd_folders n)) = names
  have base : (({ config := config, latest := 0, versions := [{}], wrappers := [] } :
      MgrState)).wrappers.all (fun w => !w.is_hot && !w.filter.discover) = true := rfl
  generalize ({ config := config, latest := 0, versions := [{}], wrappers := [] } :
      MgrState) = s0 at base ⊢
  induction names generalizing s0 with
  | nil => exact base
  | cons n t ih =>
    simp only [List.foldl_cons]
    apply ih
    rw [add_filter, init_bloom_filter]
    simp only [if_neg Bool.false_ne_true, if_pos rfl]
    simp only [if_true]
    rw [MgrState.setVersion]
    simp only [List.all_append, base, List.all_cons, List.all_nil]
    simp [Wrapper.is_hot, BloomFilter.discover]

/-- Concrete manager state used for claims C4 and C5: one published version
whose index binds `a` to an active wrapper (proxied, so `clear` passes its
precondition). -/
def exS4 : MgrState :=
  { versions := [{ filter_map := [("a", 0)] }],
    wrappers := [{ is_active := true, filter := { proxied := true } }] }

/-- C4 (code bug): when `create_new_version` fails (returns NULL), none of the
destructive operations handle it — `filtmgr_create_filter` passes the NULL
version to `add_filter` (which dereferences it in `hashmap_put`) and
`filtmgr_drop_filter` / `filtmgr_clear_filter` pass it to `hashmap_delete`;
the model yields `none` (undefined behavior / crash) instead of the claimed
-2 with unchanged state.  By contrast, the engine-constructor failure inside
`add_filter` is handled as the claim states: -2 is returned, the latest
pointer is unchanged and the previous index does not gain the new name. -/
theorem alloc_failure_null_deref :
    (filtmgr_create_filter exS4 "b" none true false true).map (fun p => p.2) = none ∧
    (filtmgr_drop_filter exS4 "a" true).map (fun p => p.2) = none ∧
    (filtmgr_clear_filter exS4 "a" true).map (fun p => p.2) = none ∧
    (filtmgr_create_filter exS4 "b" none false true true).map (fun p => p.2) =
      some (-2) ∧
    ((filtmgr_create_filter exS4 "b" none false true true).getD (exS4, 0)).1.latest
      = exS4.latest ∧
    hm_get ((((filtmgr_create_filter exS4 "b" none false true true).getD
        (exS4, 0)).1.version exS4.latest).filter_map) "b" = none := by
  refine ⟨?_, ?_, ?_, ?_, ?_, ?_⟩ <;> decide

/-- The state after dropping `a` from `exS4`. -/
def exS5' : MgrState := ((filtmgr_drop_filter exS4 "a" false).getD (exS4, 0)).1

/-- C5 counterexample: version 0 is published as latest in `exS4` with an
empty `deleted` slot; `filtmgr_drop_filter` succeeds and, in doing so, writes
the dropped wrapper into that already-published version's `deleted` slot —
the published version is mutated after publication, contradicting the claim
that neither its index nor its deleted slot nor its prev link is ever
modified. -/
theorem published_deleted_slot_mutated_cx :
    exS4.latest = 0 ∧
    (exS4.version 0).deleted = none ∧
    (filtmgr_drop_filter exS4 "a" false).map (fun p => p.2) = some 0 ∧
    (exS5'.version 0).deleted = some 0 := by
  refine ⟨?_, ?_, ?_, ?_⟩ <;> decide

/-- Concrete manager state for C7: after init over a directory that held
`bloomd.b`, the initial version binds `b` to a wrapper with `is_hot = false`
whose engine is not proxied. -/
def exS7 : MgrState :=
  { versions := [{ filter_map := [("b", 0)] }],
    wrappers := [{ is_active := true }] }

/-- C7 counterexample: on the state the claim describes (wrapper `b` cold and
non-proxied), the first `filtmgr_list_cold_filters` call returns `["b"]` as
claimed, but an immediately following second call (no intervening access to
`b`) returns `["b"]` again, not the empty list: the emitting branch of
`filter_map_list_cold_cb` never raises `is_hot`, so a cold non-proxied filter
is emitted by every call. -/
theorem list_cold_second_call_cx :
    (filtmgr_list_cold_filters exS7).2 = ["b"] ∧
    (filtmgr_list_cold_filters (filtmgr_list_cold_filters exS7).1).2 = ["b"] ∧
    (filtmgr_list_cold_filters (filtmgr_list_cold_filters exS7).1).2 ≠
      ([] : List String) := by
  refine ⟨?_, ?_, ?_⟩ <;> decide

/-- C7 (amended): with the latest index holding exactly the binding of `n` to
a cold (`is_hot = false`) wrapper whose engine is not proxied, the first
`filtmgr_list_cold_filters` call returns `[n]`, and an immediately following
second call returns `[n]` again (not the empty list): only hot wrappers are
skipped-and-lowered; emitting a cold wrapper does not raise its flag. -/
theorem list_cold_twice_emits (s : MgrState) (n : String) (wid : Nat)
    (hmap : (s.version s.latest).filter_map = [(n, wid)])
    (hhot : (s.wrapper wid).is_hot = false)
    (hprox : (s.wrapper wid).filter.proxied = false) :
    (filtmgr_list_cold_filters s).2 = [n] ∧
    (filtmgr_list_cold_filters (filtmgr_list_cold_filters s).1).2 = [n] := by
  have hfirst : filtmgr_list_cold_filters s = (s.setVsnHot s.latest, [n]) := by
    rw [filtmgr_list_cold_filters]
    simp only [filter_map_setVsnHot, hmap, List.foldl_cons, List.foldl_nil]
    rw [filter_map_list_cold_cb]
    simp only [wrapper_setVsnHot, hhot, bloomf_is_proxied, hprox]
    simp
  have hsecond : filtmgr_list_cold_filters (s.setVsnHot s.latest) =
      ((s.setVsnHot s.latest).setVsnHot s.latest, [n]) := by
    rw [filtmgr_list_cold_filters]
    simp only [latest_setVsnHot, filter_map_setVsnHot, hmap, List.foldl_cons,
      List.foldl_nil]
    rw [filter_map_list_cold_cb]
    simp only [wrapper_setVsnHot, hhot, bloomf_is_proxied, hprox]
    simp
  refine ⟨by rw [hfirst], ?_⟩
  rw [hfirst, hsecond]

/-- C7 witness: the amended theorem applied to the concrete post-discovery
state. -/
theorem list_cold_twice_emits_witness :
    (filtmgr_list_cold_filters exS7).2 = ["b"] ∧
    (filtmgr_list_cold_filters (filtmgr_list_cold_filters exS7).1).2 = ["b"] :=
  list_cold_twice_emits exS7 "b" 0 (by decide) (by decide) (by decide)

/-! ### The key-walking loops (claim C1) -/

/-- The number of keys processed before the first engine error: the length of
the longest prefix of `keys` on which `bloomf_contains` does not report -1. -/
def errIdx (f : BloomFilter) (keys : List String) : Nat :=
  (keys.takeWhile (fun k => bloomf_contains f k != -1)).length

theorem errIdx_nil (f : BloomFilter) : errIdx f [] = 0 := rfl

theorem errIdx_cons_err (f : BloomFilter) (k : String) (rest : List String)
    (h : bloomf_contains f k = -1) : errIdx f (k :: rest) = 0 := by
  simp [errIdx, List.takeWhile_cons, h]

theorem errIdx_cons_ok (f : BloomFilter) (k : String) (rest : List String)
    (h : ¬ bloomf_contains f k = -1) :
    errIdx f (k :: rest) = errIdx f rest + 1 := by
  simp [errIdx, List.takeWhile_cons, h]

/-- Return code of the check loop: 0 when no `contains` call errored, -2
otherwise. -/
theorem check_keys_loop_snd (f : BloomFilter) (keys : List String)
    (result : List Int) (i : Nat) :
    (check_keys_loop f keys result i).2 =
      if errIdx f keys = keys.length then (0 : Int) else -2 := by
  induction keys generalizing result i with
  | nil => simp [check_keys_loop, errIdx_nil]
  | cons k rest ih =>
    rw [check_keys_loop]
    by_cases hk : bloomf_contains f k = -1
    · rw [errIdx_cons_err f k rest hk]
      simp [hk]
    · rw [errIdx_cons_ok f k rest hk]
      have hb : (bloomf_contains f k == -1) = false := by
        simp [hk]
      simp only [hb, Bool.false_eq_true, if_false]
      rw [ih]
      have hlen : (k :: rest).length = rest.length + 1 := rfl
      rw [hlen]
      by_cases he : errIdx f rest = rest.length
      · simp [he]
      · have hne : ¬ (errIdx f rest + 1 = rest.length + 1) := by omega
        simp [he, hne]

/-- Output buffer of the check loop: positions `i ≤ m < i + errIdx` hold the
`contains` results for the corresponding keys; every other position is
untouched. -/
theorem check_keys_loop_fst (f : BloomFilter) (keys : List String)
    (result : List Int) (i : Nat) (h : i + keys.length ≤ result.length)
    (m : Nat) :
    (check_keys_loop f keys result i).1[m]? =
      if i ≤ m ∧ m < i + errIdx f keys then
        (keys[m - i]?).map (fun k => bloomf_contains f k)
      else result[m]? := by
  induction keys generalizing result i with
  | nil =>
    rw [check_keys_loop, errIdx_nil]
    have hno : ¬ (i ≤ m ∧ m < i + 0) := by omega
    rw [if_neg hno]
  | cons k rest ih =>
    rw [check_keys_loop]
    by_cases hk : bloomf_contains f k = -1
    · rw [errIdx_cons_err f k rest hk]
      have hb : (bloomf_contains f k == -1) = true := by simp [hk]
      simp only [hb, if_true]
      have hno : ¬ (i ≤ m ∧ m < i + 0) := by omega
      rw [if_neg hno]
    · rw [errIdx_cons_ok f k rest hk]
      have hb : (bloomf_contains f k == -1) = false := by simp [hk]
      simp only [hb, Bool.false_eq_true, if_false]
      have hlen : (result.set i (bloomf_contains f k)).length = result.length := by
        simp
      have h' : (i + 1) + rest.length ≤ (result.set i (bloomf_contains f k)).length := by
        rw [hlen]
        have : (k :: rest).length = rest.length + 1 := rfl
        rw [this] at h
        omega
      rw [ih _ _ h']
      by_cases him : i ≤ m
      · by_cases heq : m = i
        · subst heq
          have hc1 : ¬ (m + 1 ≤ m ∧ m < m + 1 + errIdx f rest) := by omega
          rw [if_neg hc1]
          have hc2 : m ≤ m ∧ m < m + (errIdx f rest + 1) := by omega
          rw [if_pos hc2]
          have hm : m < result.length := by
            have : (k :: rest).length = rest.length + 1 := rfl
            rw [this] at h
            omega
          rw [List.getElem?_set_eq_of_lt _ hm]
          have : m - m = 0 := by omega
          rw [this]
          simp
        · have hge : i + 1 ≤ m := by omega
          have hsub : m - i = (m - (i + 1)) + 1 := by omega
          by_cases hm2 : m < i + 1 + errIdx f rest
          · have hc1 : i + 1 ≤ m ∧ m < i + 1 + errIdx f rest := ⟨hge, hm2⟩
            rw [if_pos hc1]
            have hc2 : i ≤ m ∧ m < i + (errIdx f rest + 1) := by omega
            rw [if_pos hc2, hsub]
            simp
          · have hc1 : ¬ (i + 1 ≤ m ∧ m < i + 1 + errIdx f rest) := by omega
            rw [if_neg hc1]
            have hc2 : ¬ (i ≤ m ∧ m < i + (errIdx f rest + 1)) := by omega
            rw [if_neg hc2]
            exact List.getElem?_set_ne (by omega)
      · have hc1 : ¬ (i + 1 ≤ m ∧ m < i + 1 + errIdx f rest) := by omega
        rw [if_neg hc1]
        have hc2 : ¬ (i ≤ m ∧ m < i + (errIdx f rest + 1)) := by omega
        rw [if_neg hc2]
        exact List.getElem?_set_ne (by omega)

/-- `take_filter` on a name whose latest-index binding is an active wrapper:
the version is marked hot and the wrapper id is returned. -/
theorem take_filter_eq_some (s : MgrState) (n : String) (wid : Nat)
    (hg : hm_get (s.version s.latest).filter_map n = some wid)
    (ha : (s.wrapper wid).is_active = true) :
    take_filter s s.latest n = (s.setVsnHot s.latest, some wid) := by
  rw [take_filter]
  simp only [filter_map_setVsnHot, hg, wrapper_setVsnHot, ha, if_true]

/-- C1: `filtmgr_check_keys` returns -1 exactly when the latest version's
index holds no active wrapper for the name (leaving the buffer untouched);
otherwise it walks the keys in order writing each `contains` result into
`result[i]`, stopping at the first engine error: with `e` the number of keys
processed before the first error, the return code is 0 when `e = keys.length`
(no error, every position written with its `contains` result) and -2
otherwise, positions before `e` holding the written prefix and positions from
`e` on left unchanged. -/
theorem filtmgr_check_keys_spec (s : MgrState) (n : String) (keys : List String)
    (buf : List Int) (hbuf : keys.length ≤ buf.length) :
    (hasActive s n = false →
      filtmgr_check_keys s n keys buf = (s.setVsnHot s.latest, buf, -1)) ∧
    (∀ wid, hm_get (s.version s.latest).filter_map n = some wid →
      (s.wrapper wid).is_active = true →
      ((filtmgr_check_keys s n keys buf).2.2 =
        if errIdx (s.wrapper wid).filter keys = keys.length then 0 else -2) ∧
      (∀ m, (filtmgr_check_keys s n keys buf).2.1[m]? =
        if m < errIdx (s.wrapper wid).filter keys then
          (keys[m]?).map (fun k => bloomf_contains (s.wrapper wid).filter k)
        else buf[m]?)) := by
  constructor
  · intro h
    rw [filtmgr_check_keys, take_filter_eq_none s n h]
  · intro wid hg ha
    rw [filtmgr_check_keys, take_filter_eq_some s n wid hg ha]
    simp only [wrapper_setVsnHot]
    constructor
    · rw [check_keys_loop_snd]
    · intro m
      rw [check_keys_loop_fst _ _ _ _ (by omega) m]
      simp only [Nat.zero_le, true_and, Nat.zero_add, Nat.sub_zero]

/-- Concrete state for the C1 witness: filter `a` holds key `x` and its
engine errors on key `y`. -/
def exS1 : MgrState :=
  { versions := [{ filter_map := [("a", 0)] }],
    wrappers := [{ is_active := true,
                   filter := { keys := ["x"], containsErrKeys := ["y"] } }] }

/-- C1 witness: checking `[x, y, z]` errors at index 1 — return code -2,
`result[0]` written with 1, `result[1]` and `result[2]` untouched; checking a
missing name returns -1 with the buffer untouched. -/
theorem filtmgr_check_keys_spec_witness :
    (filtmgr_check_keys exS1 "a" ["x", "y", "z"] [9, 9, 9]).2.2 = -2 ∧
    (filtmgr_check_keys exS1 "a" ["x", "y", "z"] [9, 9, 9]).2.1[0]? = some 1 ∧
    (filtmgr_check_keys exS1 "a" ["x", "y", "z"] [9, 9, 9]).2.1[1]? = some 9 ∧
    (filtmgr_check_keys exS1 "a" ["x", "y", "z"] [9, 9, 9]).2.1[2]? = some 9 ∧
    (filtmgr_check_keys exS1 "nope" ["x"] [7]).2.2 = -1 := by
  have h := (filtmgr_check_keys_spec exS1 "a" ["x", "y", "z"] [9, 9, 9]
    (by decide)).2 0 (by decide) (by decide)
  have hmiss := (filtmgr_check_keys_spec exS1 "nope" ["x"] [7] (by decide)).1
    (by decide)
  refine ⟨?_, ?_, ?_, ?_, ?_⟩
  · rw [h.1]
    decide
  · rw [h.2 0]
    decide
  · rw [h.2 1]
    decide
  · rw [h.2 2]
    decide
  · rw [hmiss]

/-- Creating a filter whose name is absent from the latest index succeeds
(no allocation or engine failure). -/
theorem create_filter_on_absent (s : MgrState) (n : String)
    (hg : hm_get (s.version s.latest).filter_map n = none) :
    (filtmgr_create_filter s n none false false true).map (fun p => p.2) =
      some 0 := by
  rw [filtmgr_create_filter]
  simp only [filter_map_setVsnHot, hg, create_new_version, add_filter,
    init_bloom_filter, Bool.false_eq_true, if_false, if_true]
  simp

/-- After installing a copy of the index with the name deleted (the common
publish step of drop and clear), the name is absent from the version the new
latest pointer designates — whatever index the copy started from, and
regardless of the later `deleted`-slot write to the superseded version. -/
theorem hm_get_publish_none (t : MgrState) (current newId : Nat) (n : String)
    (wid : Nat) (hlt : newId < t.versions.length) :
    let s4 := t.setVersion newId
      { t.version newId with filter_map := hm_delete (t.version newId).filter_map n }
    let s5 := s4.setVersion current { s4.version current with deleted := some wid }
    hm_get ((s5.version newId).filter_map) n = none := by
  intro s4 s5
  show hm_get (((s4.setVersion current
    { s4.version current with deleted := some wid }).version newId).filter_map) n
      = none
  rw [version_setVersion]
  split
  · rename_i hc
    show hm_get ((s4.version current).filter_map) n = none
    rw [hc.1]
    rw [version_setVersion_self t newId _ hlt]
    exact hm_get_hm_delete _ n
  · rw [version_setVersion_self t newId _ hlt]
    exact hm_get_hm_delete _ n

/-- C3: if `filtmgr_drop_filter` returns 0, the name is gone from the freshly
published latest index, and an immediately following `filtmgr_create_filter`
of the same name (no allocation or engine failure, no other intervening
operation) returns 0. -/
theorem drop_then_create_succeeds (s s' : MgrState) (n : String)
    (h : filtmgr_drop_filter s n false = some (s', 0)) :
    hm_get ((s'.version s'.latest).filter_map) n = none ∧
    (filtmgr_create_filter s' n none false false true).map (fun p => p.2) =
      some 0 := by
  have habsent : hm_get ((s'.version s'.latest).filter_map) n = none := by
    by_cases hact : hasActive s n = true
    · rw [hasActive] at hact
      rcases hg : hm_get (s.version s.latest).filter_map n with _ | wid
      · rw [hg] at hact
        exact absurd hact (by simp)
      · rw [hg] at hact
        have ha : (s.wrapper wid).is_active = true := hact
        rw [filtmgr_drop_filter, take_filter_eq_some s n wid hg ha] at h
        simp only [create_new_version, Bool.false_eq_true, if_false,
          Option.some.injEq, Prod.mk.injEq] at h
        obtain ⟨hS, -⟩ := h
        rw [← hS]
        exact hm_get_publish_none _ s.latest _ n wid (by simp)
    · have hact' : hasActive s n = false := by
        cases hb : hasActive s n
        · rfl
        · exact absurd hb hact
      rw [filtmgr_drop_filter, take_filter_eq_none s n hact'] at h
      simp at h
  exact ⟨habsent, create_filter_on_absent s' n habsent⟩

/-- Setting a single key on an active wrapper: the wrapper's engine handle is
updated with the `add` result, the wrapper is marked hot, the result byte is
the `add` return, and the call returns 0 (no engine error on this key). -/
theorem set_keys_single (s : MgrState) (n k : String) (wid : Nat) (z : Int)
    (hg : hm_get (s.version s.latest).filter_map n = some wid)
    (ha : (s.wrapper wid).is_active = true)
    (haerr : (s.wrapper wid).filter.addErrKeys.contains k = false) :
    filtmgr_set_keys s n [k] [z] =
      ((s.setVsnHot s.latest).setWrapper wid
        { s.wrapper wid with
            filter := (bloomf_add (s.wrapper wid).filter k).2, is_hot := true },
       [(bloomf_add (s.wrapper wid).filter k).1], 0) := by
  rw [filtmgr_set_keys, take_filter_eq_some s n wid hg ha]
  simp only [wrapper_setVsnHot]
  rw [set_keys_loop]
  have hne : ((bloomf_add (s.wrapper wid).filter k).1 == -1) = false := by
    rw [bloomf_add, if_neg (by simpa using haerr)]
    split <;> rfl
  simp only [hne, Bool.false_eq_true, if_false]
  rw [set_keys_loop]
  simp

/-- Checking a single key on an active wrapper: the wrapper is marked hot,
the result byte is the `contains` result, and the call returns 0 (no engine
error on this key). -/
theorem check_keys_single (s : MgrState) (n k : String) (wid : Nat) (z : Int)
    (hg : hm_get (s.version s.latest).filter_map n = some wid)
    (ha : (s.wrapper wid).is_active = true)
    (hcerr : (s.wrapper wid).filter.containsErrKeys.contains k = false) :
    filtmgr_check_keys s n [k] [z] =
      ((s.setVsnHot s.latest).setWrapper wid
        { s.wrapper wid with is_hot := true },
       [bloomf_contains (s.wrapper wid).filter k], 0) := by
  rw [filtmgr_check_keys, take_filter_eq_some s n wid hg ha]
  simp only [wrapper_setVsnHot]
  rw [check_keys_loop]
  have hne : (bloomf_contains (s.wrapper wid).filter k == -1) = false := by
    rw [bloomf_contains, if_neg (by simpa using hcerr)]
    split <;> rfl
  simp only [hne, Bool.false_eq_true, if_false]
  rw [check_keys_loop]
  simp

theorem bloomf_add_keys_contains (f : BloomFilter) (k : String)
    (haerr : f.addErrKeys.contains k = false) :
    (bloomf_add f k).2.keys.contains k = true := by
  rw [bloomf_add, if_neg (by simpa using haerr)]
  split
  · rename_i hmem
    exact hmem
  · simp

theorem bloomf_add_containsErrKeys (f : BloomFilter) (k : String) :
    (bloomf_add f k).2.containsErrKeys = f.containsErrKeys := by
  rw [bloomf_add]
  split
  · rfl
  · split <;> rfl

theorem bloomf_add_addErrKeys (f : BloomFilter) (k : String) :
    (bloomf_add f k).2.addErrKeys = f.addErrKeys := by
  rw [bloomf_add]
  split
  · rfl
  · split <;> rfl

/-- Adding a key that the handle already holds reports 0 (already present). -/
theorem bloomf_add_present (f : BloomFilter) (k : String)
    (haerr : f.addErrKeys.contains k = false)
    (hmem : f.keys.contains k = true) :
    (bloomf_add f k).1 = 0 := by
  rw [bloomf_add, if_neg (by simpa using haerr), if_pos hmem]

/-- `contains` reports 1 for a key the handle holds (no engine error). -/
theorem bloomf_contains_present (f : BloomFilter) (k : String)
    (hcerr : f.containsErrKeys.contains k = false)
    (hmem : f.keys.contains k = true) :
    bloomf_contains f k = 1 := by
  rw [bloomf_contains, if_neg (by simpa using hcerr), if_pos hmem]

/-- C6: on a manager state with an active filter `n` whose engine does not
error on key `k` (the spec's engine contract): `set_keys(n, [k])` returns 0;
the following `check_keys(n, [k])` returns 0 and writes result byte 1; a
second `set_keys(n, [k])` returns 0 and writes result byte 0 (already
present). -/
theorem set_check_set_roundtrip (s : MgrState) (n k : String) (wid : Nat)
    (hg : hm_get (s.version s.latest).filter_map n = some wid)
    (ha : (s.wrapper wid).is_active = true)
    (haerr : (s.wrapper wid).filter.addErrKeys.contains k = false)
    (hcerr : (s.wrapper wid).filter.containsErrKeys.contains k = false) :
    (filtmgr_set_keys s n [k] [9]).2.2 = 0 ∧
    (filtmgr_check_keys (filtmgr_set_keys s n [k] [9]).1 n [k] [9]).2.2 = 0 ∧
    (filtmgr_check_keys (filtmgr_set_keys s n [k] [9]).1 n [k] [9]).2.1 = [1] ∧
    (filtmgr_set_keys
      (filtmgr_check_keys (filtmgr_set_keys s n [k] [9]).1 n [k] [9]).1
      n [k] [9]).2.2 = 0 ∧
    (filtmgr_set_keys
      (filtmgr_check_keys (filtmgr_set_keys s n [k] [9]).1 n [k] [9]).1
      n [k] [9]).2.1 = [0] := by
  have hw : wid < s.wrappers.length := lt_wrappers_length_of_active s wid ha
  have h1 := set_keys_single s n k wid 9 hg ha haerr
  -- the state after the first set
  rw [h1]
  set w1 : Wrapper :=
    { s.wrapper wid with
        filter := (bloomf_add (s.wrapper wid).filter k).2, is_hot := true }
    with hw1
  set s1 : MgrState := (s.setVsnHot s.latest).setWrapper wid w1 with hs1
  have hw1lt : wid < (s.setVsnHot s.latest).wrappers.length := hw
  have hs1w : s1.wrapper wid = w1 := by
    rw [hs1]
    exact wrapper_setWrapper_self _ wid w1 hw1lt
  have hg1 : hm_get ((s1.version s1.latest).filter_map) n = some wid := by
    rw [hs1]
    simp only [latest_setWrapper, latest_setVsnHot, version_setWrapper,
      filter_map_setVsnHot, hg]
  have ha1 : (s1.wrapper wid).is_active = true := by
    rw [hs1w, hw1]
    exact ha
  have hmem1 : (s1.wrapper wid).filter.keys.contains k = true := by
    rw [hs1w, hw1]
    exact bloomf_add_keys_contains _ k haerr
  have hcerr1 : (s1.wrapper wid).filter.containsErrKeys.contains k = false := by
    rw [hs1w, hw1]
    simp only [bloomf_add_containsErrKeys]
    exact hcerr
  have haerr1 : (s1.wrapper wid).filter.addErrKeys.contains k = false := by
    rw [hs1w, hw1]
    simp only [bloomf_add_addErrKeys]
    exact haerr
  have h2 := check_keys_single s1 n k wid 9 hg1 ha1 hcerr1
  rw [h2]
  have hcont1 : bloomf_contains (s1.wrapper wid).filter k = 1 :=
    bloomf_contains_present _ k hcerr1 hmem1
  -- the state after the check
  set w2 : Wrapper := { s1.wrapper wid with is_hot := true } with hw2
  set s2 : MgrState := (s1.setVsnHot s1.latest).setWrapper wid w2 with hs2
  have hw2lt : wid < (s1.setVsnHot s1.latest).wrappers.length := by
    rw [hs1]
    simpa using hw
  have hs2w : s2.wrapper wid = w2 := by
    rw [hs2]
    exact wrapper_setWrapper_self _ wid w2 hw2lt
  have hg2 : hm_get ((s2.version s2.latest).filter_map) n = some wid := by
    rw [hs2]
    simp only [latest_setWrapper, latest_setVsnHot, version_setWrapper,
      filter_map_setVsnHot]
    exact hg1
  have ha2 : (s2.wrapper wid).is_active = true := by
    rw [hs2w, hw2]
    exact ha1
  have hmem2 : (s2.wrapper wid).filter.keys.contains k = true := by
    rw [hs2w, hw2]
    exact hmem1
  have haerr2 : (s2.wrapper wid).filter.addErrKeys.contains k = false := by
    rw [hs2w, hw2]
    exact haerr1
  have h3 := set_keys_single s2 n k wid 9 hg2 ha2 haerr2
  rw [h3]
  have hadd2 : (bloomf_add (s2.wrapper wid).filter k).1 = 0 :=
    bloomf_add_present _ k haerr2 hmem2
  refine ⟨rfl, rfl, ?_, rfl, ?_⟩
  · rw [hcont1]
  · rw [hadd2]

/-- Concrete state for the C6 witness: an empty active filter `a`. -/
def exS6 : MgrState :=
  { versions := [{ filter_map := [("a", 0)] }],
    wrappers := [{ is_active := true }] }

/-- C6 witness: the round-trip theorem applied to a fresh filter and key. -/
theorem set_check_set_roundtrip_witness :
    (filtmgr_set_keys exS6 "a" ["x"] [9]).2.2 = 0 ∧
    (filtmgr_check_keys (filtmgr_set_keys exS6 "a" ["x"] [9]).1 "a" ["x"] [9]).2.2
      = 0 ∧
    (filtmgr_check_keys (filtmgr_set_keys exS6 "a" ["x"] [9]).1 "a" ["x"] [9]).2.1
      = [1] ∧
    (filtmgr_set_keys
      (filtmgr_check_keys (filtmgr_set_keys exS6 "a" ["x"] [9]).1 "a" ["x"] [9]).1
      "a" ["x"] [9]).2.2 = 0 ∧
    (filtmgr_set_keys
      (filtmgr_check_keys (filtmgr_set_keys exS6 "a" ["x"] [9]).1 "a" ["x"] [9]).1
      "a" ["x"] [9]).2.1 = [0] :=
  set_check_set_roundtrip exS6 "a" "x" 0 (by decide) (by decide) (by decide)
    (by decide)

/-- Concrete state for the C3 witness. -/
def exS3 : MgrState :=
  { versions := [{ filter_map := [("a", 0)] }],
    wrappers := [{ is_active := true }] }

/-- The state published by dropping `a` from `exS3`. -/
def exS3' : MgrState := ((filtmgr_drop_filter exS3 "a" false).getD (exS3, 0)).1

/-- C3 witness: dropping `a` and immediately recreating it on the concrete
state. -/
theorem drop_then_create_succeeds_witness :
    hm_get ((exS3'.version exS3'.latest).filter_map) "a" = none ∧
    (filtmgr_create_filter exS3' "a" none false false true).map (fun p => p.2) =
      some 0 :=
  drop_then_create_succeeds exS3 exS3' "a" (by decide)

/-- Final teardown of a wrapper whose `should_delete` is clear goes through
engine `close`, which does not erase the on-disk state. -/
theorem delete_filter_close_keeps_disk (t : MgrState) (wid : Nat)
    (h : (t.wrapper wid).should_delete = false) :
    ((delete_filter t wid).wrapper wid).filter.erased =
      (t.wrapper wid).filter.erased := by
  have hwr : (delete_filter t wid).wrapper wid =
      (t.setWrapper wid
        { t.wrapper wid with
            filter := if (t.wrapper wid).should_delete then
                bloomf_delete (t.wrapper wid).filter
              else bloomf_close (t.wrapper wid).filter }).wrapper wid := rfl
  rw [hwr, wrapper_setWrapper]
  split
  · show (if (t.wrapper wid).should_delete then
        bloomf_delete (t.wrapper wid).filter
      else bloomf_close (t.wrapper wid).filter).erased = _
    rw [h]
    simp [bloomf_close]
  · rfl

/-- C8: `filtmgr_clear_filter` returns -1 when the latest index holds no
active wrapper for the name; returns -2 when the wrapper exists but its
engine is not proxied, leaving the latest pointer, the latest index and the
wrapper's `is_active` / `should_delete` flags unchanged (only the version's
hot flag is raised by the lookup); and on a proxied wrapper it succeeds with
0, removing the name from the newly published index, with the wrapper
deactivated and `should_delete = false` — so final teardown
(`delete_filter`) closes the filter without erasing its on-disk state. -/
theorem clear_filter_spec (s : MgrState) (n : String) (af : Bool) :
    (hasActive s n = false →
      filtmgr_clear_filter s n af = some (s.setVsnHot s.latest, -1)) ∧
    (∀ wid, hm_get (s.version s.latest).filter_map n = some wid →
      (s.wrapper wid).is_active = true →
      ((s.wrapper wid).filter.proxied = false →
        filtmgr_clear_filter s n af = some (s.setVsnHot s.latest, -2) ∧
        (s.setVsnHot s.latest).latest = s.latest ∧
        ((s.setVsnHot s.latest).version s.latest).filter_map =
          (s.version s.latest).filter_map ∧
        ((s.setVsnHot s.latest).wrapper wid).is_active =
          (s.wrapper wid).is_active ∧
        ((s.setVsnHot s.latest).wrapper wid).should_delete =
          (s.wrapper wid).should_delete) ∧
      ((s.wrapper wid).filter.proxied = true →
        ∃ s', filtmgr_clear_filter s n false = some (s', 0) ∧
          hm_get ((s'.version s'.latest).filter_map) n = none ∧
          (s'.wrapper wid).is_active = false ∧
          (s'.wrapper wid).should_delete = false ∧
          ((delete_filter s' wid).wrapper wid).filter.erased =
            (s'.wrapper wid).filter.erased)) := by
  constructor
  · intro h
    rw [filtmgr_clear_filter, take_filter_eq_none s n h]
  · intro wid hg ha
    have hw : wid < s.wrappers.length := lt_wrappers_length_of_active s wid ha
    constructor
    · intro hprox
      rw [filtmgr_clear_filter, take_filter_eq_some s n wid hg ha]
      simp only [wrapper_setVsnHot, bloomf_is_proxied, hprox, Bool.not_false,
        if_true]
      simp
    · intro hprox
      rw [filtmgr_clear_filter, take_filter_eq_some s n wid hg ha]
      simp only [wrapper_setVsnHot, bloomf_is_proxied, hprox, Bool.not_true,
        Bool.false_eq_true, if_false, create_new_version]
      refine ⟨_, rfl, ?_, ?_, ?_, ?_⟩
      · exact hm_get_publish_none _ s.latest _ n wid (by simp)
      · show (((s.setVsnHot s.latest).setWrapper wid
            { s.wrapper wid with is_active := false, should_delete := false }).wrapper
              wid).is_active = false
        rw [wrapper_setWrapper_self _ wid _ (by simpa using hw)]
      · show (((s.setVsnHot s.latest).setWrapper wid
            { s.wrapper wid with is_active := false, should_delete := false }).wrapper
              wid).should_delete = false
        rw [wrapper_setWrapper_self _ wid _ (by simpa using hw)]
      · apply delete_filter_close_keeps_disk
        show (((s.setVsnHot s.latest).setWrapper wid
            { s.wrapper wid with is_active := false, should_delete := false }).wrapper
              wid).should_delete = false
        rw [wrapper_setWrapper_self _ wid _ (by simpa using hw)]

/-- Concrete state for the C8 witness: `a` is active but resident (not
proxied); `p` is active and proxied. -/
def exS8 : MgrState :=
  { versions := [{ filter_map := [("a", 0), ("p", 1)] }],
    wrappers := [{ is_active := true },
                 { is_active := true, filter := { proxied := true } }] }

/-- C8 witness: the clear specification applied to a missing name, a
non-proxied filter, and a proxied filter on the concrete state. -/
theorem clear_filter_spec_witness :
    filtmgr_clear_filter exS8 "zz" true = some (exS8.setVsnHot exS8.latest, -1) ∧
    filtmgr_clear_filter exS8 "a" true = some (exS8.setVsnHot exS8.latest, -2) ∧
    (∃ s', filtmgr_clear_filter exS8 "p" false = some (s', 0) ∧
      hm_get ((s'.version s'.latest).filter_map) "p" = none ∧
      (s'.wrapper 1).is_active = false ∧
      (s'.wrapper 1).should_delete = false ∧
      ((delete_filter s' 1).wrapper 1).filter.erased =
        (s'.wrapper 1).filter.erased) := by
  refine ⟨?_, ?_, ?_⟩
  · exact (clear_filter_spec exS8 "zz" true).1 (by decide)
  · exact (((clear_filter_spec exS8 "a" true).2 0 (by decide) (by decide)).1
      (by decide)).1
  · exact ((clear_filter_spec exS8 "p" true).2 1 (by decide) (by decide)).2
      (by decide)

/-- The state component of `take_filter` is always the input state with the
looked-up version marked hot, whatever the lookup's outcome. -/
theorem take_filter_fst (s : MgrState) (v : Nat) (n : String) :
    (take_filter s v n).1 = s.setVsnHot v := by
  rw [take_filter]
  split
  · rfl
  · split
    · rfl
    · rfl

/-- C10: `take_filter` raises the version's hot flag before the lookup, on
every call — including those that fail; consequently each read-side
operation (`check_keys`, `set_keys`, `flush`, `unmap`, and the lookup phase
of `drop` / `clear`) marks its snapshot of the latest version hot even when
it returns -1 because the name is absent or the wrapper inactive. -/
theorem take_filter_marks_hot_spec (s : MgrState) (v : Nat) (n : String)
    (keys : List String) (buf : List Int) (af : Bool)
    (hv : v < s.versions.length) (hl : s.latest < s.versions.length) :
    (((take_filter s v n).1.version v).is_hot = true) ∧
    (hasActive s n = false →
      filtmgr_check_keys s n keys buf = (s.setVsnHot s.latest, buf, -1) ∧
      filtmgr_set_keys s n keys buf = (s.setVsnHot s.latest, buf, -1) ∧
      filtmgr_flush_filter s n = (s.setVsnHot s.latest, -1) ∧
      filtmgr_unmap_filter s n = (s.setVsnHot s.latest, -1) ∧
      filtmgr_drop_filter s n af = some (s.setVsnHot s.latest, -1) ∧
      filtmgr_clear_filter s n af = some (s.setVsnHot s.latest, -1) ∧
      ((s.setVsnHot s.latest).version s.latest).is_hot = true) := by
  constructor
  · rw [take_filter_fst]
    rw [MgrState.setVsnHot, version_setVersion_self s v _ hv]
  · intro h
    refine ⟨?_, ?_, ?_, ?_, ?_, ?_, ?_⟩
    · rw [filtmgr_check_keys, take_filter_eq_none s n h]
    · rw [filtmgr_set_keys, take_filter_eq_none s n h]
    · rw [filtmgr_flush_filter, take_filter_eq_none s n h]
    · rw [filtmgr_unmap_filter, take_filter_eq_none s n h]
    · rw [filtmgr_drop_filter, take_filter_eq_none s n h]
    · rw [filtmgr_clear_filter, take_filter_eq_none s n h]
    · rw [MgrState.setVsnHot, version_setVersion_self s s.latest _ hl]

/-- Concrete state for the C10 witness. -/
def exS10 : MgrState :=
  { versions := [{ filter_map := [("a", 0)] }],
    wrappers := [{ is_active := false }] }

/-- C10 witness: on a state whose only binding for `a` is an inactive
wrapper, every read-side lookup of `a` fails with -1 yet leaves the latest
version marked hot, and a bare `take_filter` of any name marks the version
hot. -/
theorem take_filter_marks_hot_spec_witness :
    (((take_filter exS10 0 "zz").1.version 0).is_hot = true) ∧
    filtmgr_check_keys exS10 "a" ["x"] [9] =
      (exS10.setVsnHot exS10.latest, [9], -1) ∧
    filtmgr_drop_filter exS10 "a" false =
      some (exS10.setVsnHot exS10.latest, -1) ∧
    ((exS10.setVsnHot exS10.latest).version exS10.latest).is_hot = true := by
  have h := take_filter_marks_hot_spec exS10 0 "zz" ["x"] [9] false (by decide)
    (by decide)
  have h2 := take_filter_marks_hot_spec exS10 0 "a" ["x"] [9] false (by decide)
    (by decide)
  have h2' := h2.2 (by decide)
  exact ⟨h.1, h2'.1, h2'.2.2.2.2.1, h2'.2.2.2.2.2.2⟩

/-! ### Index immutability of existing versions (claim C5, amended) -/

/-- Every version id allocated before a step keeps its index (`filter_map`)
after the step; the step may only allocate new versions. -/
def MapsPres (s t : MgrState) : Prop :=
  s.versions.length ≤ t.versions.length ∧
  ∀ i, i < s.versions.length →
    (t.version i).filter_map = (s.version i).filter_map

theorem mapsPres_refl (s : MgrState) : MapsPres s s :=
  ⟨Nat.le_refl _, fun _ _ => rfl⟩

theorem mapsPres_trans {s t u : MgrState} (h1 : MapsPres s t)
    (h2 : MapsPres t u) : MapsPres s u :=
  ⟨Nat.le_trans h1.1 h2.1, fun i hi =>
    (h2.2 i (Nat.lt_of_lt_of_le hi h1.1)).trans (h1.2 i hi)⟩

theorem mapsPres_of_versions_eq {s t : MgrState} (h : t.versions = s.versions) :
    MapsPres s t :=
  ⟨by rw [h], fun i _ => by rw [MgrState.version, MgrState.version, h]⟩

theorem mapsPres_setVsnHot (s : MgrState) (j : Nat) :
    MapsPres s (s.setVsnHot j) :=
  ⟨by simp, fun i _ => filter_map_setVsnHot s j i⟩

theorem mapsPres_setWrapper (s : MgrState) (j : Nat) (w : Wrapper) :
    MapsPres s (s.setWrapper j w) :=
  mapsPres_of_versions_eq rfl

theorem getD_append_left {α : Type} (l l' : List α) (i : Nat) (d : α)
    (h : i < l.length) : (l ++ l').getD i d = l.getD i d := by
  induction l generalizing i with
  | nil => exact absurd h (by simp)
  | cons a t ih =>
    cases i with
    | zero => rfl
    | succ i =>
      have hi : i < t.length := by simpa using h
      simpa using ih i hi

theorem mapsPres_append (s : MgrState) (v : Version) :
    MapsPres s { s with versions := s.versions ++ [v] } := by
  refine ⟨by simp, fun i hi => ?_⟩
  show ((s.versions ++ [v]).getD i {}).filter_map = _
  rw [getD_append_left _ _ i _ hi]
  rfl

theorem mapsPres_setVersion_samemap (s : MgrState) (j : Nat) (v : Version)
    (h : v.filter_map = (s.version j).filter_map) :
    MapsPres s (s.setVersion j v) := by
  refine ⟨by simp [MgrState.setVersion], fun i hi => ?_⟩
  rw [version_setVersion]
  split
  · rename_i hj
    rw [h, hj.1]
  · rfl

theorem mapsPres_setVersion_ge (s u : MgrState) (j : Nat) (v : Version)
    (h : MapsPres s u) (hj : s.versions.length ≤ j) :
    MapsPres s (u.setVersion j v) := by
  refine ⟨?_, fun i hi => ?_⟩
  · have : (u.setVersion j v).versions.length = u.versions.length := by
      simp [MgrState.setVersion]
    rw [this]
    exact h.1
  · rw [version_setVersion]
    have hne : ¬ (j = i ∧ i < u.versions.length) := by
      intro hc
      omega
    rw [if_neg hne]
    exact h.2 i hi

theorem mapsPres_take (s : MgrState) (v : Nat) (n : String) :
    MapsPres s (take_filter s v n).1 := by
  rw [take_filter_fst]
  exact mapsPres_setVsnHot s v

theorem mapsPres_check (s : MgrState) (n : String) (keys : List String)
    (buf : List Int) : MapsPres s (filtmgr_check_keys s n keys buf).1 := by
  rw [filtmgr_check_keys]
  split
  · exact mapsPres_take s s.latest n
  · exact mapsPres_trans (mapsPres_take s s.latest n)
      (mapsPres_setWrapper _ _ _)

theorem mapsPres_set (s : MgrState) (n : String) (keys : List String)
    (buf : List Int) : MapsPres s (filtmgr_set_keys s n keys buf).1 := by
  rw [filtmgr_set_keys]
  split
  · exact mapsPres_take s s.latest n
  · exact mapsPres_trans (mapsPres_take s s.latest n)
      (mapsPres_setWrapper _ _ _)

theorem mapsPres_flush (s : MgrState) (n : String) :
    MapsPres s (filtmgr_flush_filter s n).1 := by
  rw [filtmgr_flush_filter]
  split
  · exact mapsPres_take s s.latest n
  · exact mapsPres_take s s.latest n

theorem mapsPres_unmap (s : MgrState) (n : String) :
    MapsPres s (filtmgr_unmap_filter s n).1 := by
  rw [filtmgr_unmap_filter]
  split
  · exact mapsPres_take s s.latest n
  · simp only []
    split
    · exact mapsPres_trans (mapsPres_take s s.latest n)
        (mapsPres_setWrapper _ _ _)
    · exact mapsPres_take s s.latest n

theorem mapsPres_list (s : MgrState) :
    MapsPres s (filtmgr_list_filters s).1 := by
  rw [filtmgr_list_filters]
  exact mapsPres_setVsnHot s s.latest

theorem list_cold_fold_versions (l : List (String × Nat))
    (acc : MgrState × List String) :
    (l.foldl (fun acc p => filter_map_list_cold_cb acc.1 acc.2 p.1 p.2)
      acc).1.versions = acc.1.versions := by
  induction l generalizing acc with
  | nil => rfl
  | cons p t ih =>
    rw [List.foldl_cons, ih]
    rw [filter_map_list_cold_cb]
    split
    · rfl
    · split
      · rfl
      · rfl

theorem mapsPres_list_cold (s : MgrState) :
    MapsPres s (filtmgr_list_cold_filters s).1 := by
  have hv : (filtmgr_list_cold_filters s).1.versions =
      (s.setVsnHot s.latest).versions := by
    rw [filtmgr_list_cold_filters]
    exact list_cold_fold_versions _ _
  refine mapsPres_trans (mapsPres_setVsnHot s s.latest)
    (mapsPres_of_versions_eq hv)

theorem mapsPres_destroy (s : MgrState) (i : Nat) :
    MapsPres s (destroy_version s i) :=
  mapsPres_of_versions_eq rfl

theorem mapsPres_latest_update (s : MgrState) (j : Nat) :
    MapsPres s ({ s with latest := j } : MgrState) :=
  mapsPres_of_versions_eq rfl

theorem delete_filter_versions (s : MgrState) (wid : Nat) :
    (delete_filter s wid).versions = s.versions := rfl

theorem clean_old_versions_versions (s : MgrState) (fuel vid : Nat) :
    (clean_old_versions s fuel vid).versions = s.versions := by
  induction fuel generalizing s vid with
  | zero => rfl
  | succ fuel ih =>
    rw [clean_old_versions]
    have hs1 : (match (s.version vid).prev with
        | some p => clean_old_versions s fuel p
        | none => s).versions = s.versions := by
      cases (s.version vid).prev with
      | none => rfl
      | some p => exact ih s p
    cases hdel : ((match (s.version vid).prev with
        | some p => clean_old_versions s fuel p
        | none => s).version vid).deleted with
    | none => exact hs1
    | some w => exact hs1

theorem mapsPres_add_filter (s u : MgrState) (j : Nat) (n : String)
    (cfg : BloomConfig) (hot ef pk : Bool)
    (h : MapsPres s u) (hj : s.versions.length ≤ j) :
    MapsPres s (add_filter u j n cfg hot ef pk).1 := by
  rw [add_filter]
  cases hinit : init_bloom_filter cfg n hot ef with
  | none => exact h
  | some f =>
    cases pk with
    | false => exact h
    | true =>
      refine mapsPres_setVersion_ge s _ j _ ?_ hj
      exact mapsPres_trans h (mapsPres_of_versions_eq rfl)

/-- The publish-or-destroy tail of `filtmgr_create_filter` keeps every
pre-existing version's index. -/
theorem mapsPres_create_publish (s u : MgrState) (j : Nat) (n : String)
    (cfg : BloomConfig) (ef pk : Bool)
    (h : MapsPres s u) (hj : s.versions.length ≤ j) :
    ∀ p, ((if (add_filter u j n cfg true ef pk).2 != 0 then
        some (destroy_version (add_filter u j n cfg true ef pk).1 j, (-2 : Int))
      else
        some (({ (add_filter u j n cfg true ef pk).1 with latest := j } :
          MgrState), (0 : Int))) = some p) →
      MapsPres s p.1 := by
  intro p hp
  have ha := mapsPres_add_filter s u j n cfg true ef pk h hj
  by_cases hb : ((add_filter u j n cfg true ef pk).2 != 0) = true
  · rw [if_pos hb] at hp
    simp only [Option.some.injEq] at hp
    rw [← hp]
    exact mapsPres_trans ha (mapsPres_destroy _ _)
  · rw [if_neg hb] at hp
    simp only [Option.some.injEq] at hp
    rw [← hp]
    exact mapsPres_trans ha (mapsPres_latest_update _ _)

theorem mapsPres_create (s : MgrState) (n : String) (cfg? : Option BloomConfig)
    (af ef pk : Bool) :
    ∀ p, filtmgr_create_filter s n cfg? af ef pk = some p →
      MapsPres s p.1 := by
  intro p hp
  rw [filtmgr_create_filter] at hp
  revert hp
  cases hg : hm_get ((s.setVsnHot s.latest).version s.latest).filter_map n with
  | some w =>
    intro hp
    simp only [Option.some.injEq] at hp
    rw [← hp]
    exact mapsPres_setVsnHot s s.latest
  | none =>
    cases af with
    | true =>
      intro hp
      simp [create_new_version] at hp
    | false =>
      intro hp
      simp only [create_new_version, Bool.false_eq_true, if_false] at hp
      refine mapsPres_create_publish s _ _ n _ ef pk ?_ ?_ p hp
      · exact mapsPres_trans (mapsPres_setVsnHot s s.latest) (mapsPres_append _ _)
      · simp

theorem mapsPres_drop (s : MgrState) (n : String) (af : Bool) :
    ∀ p, filtmgr_drop_filter s n af = some p → MapsPres s p.1 := by
  intro p hp
  rw [filtmgr_drop_filter] at hp
  split at hp
  · simp only [Option.some.injEq] at hp
    rw [← hp]
    exact mapsPres_take s s.latest n
  · cases af with
    | true =>
      simp [create_new_version] at hp
    | false =>
      simp only [create_new_version, Bool.false_eq_true, if_false,
        Option.some.injEq] at hp
      rw [← hp]
      refine mapsPres_trans ?_ (mapsPres_latest_update _ _)
      refine mapsPres_trans ?_ (mapsPres_setVersion_samemap _ _ _ rfl)
      refine mapsPres_setVersion_ge s _ _ _ ?_ (by simp [take_filter_fst])
      exact mapsPres_trans
        (mapsPres_trans (mapsPres_take s s.latest n) (mapsPres_setWrapper _ _ _))
        (mapsPres_append _ _)

theorem mapsPres_clear (s : MgrState) (n : String) (af : Bool) :
    ∀ p, filtmgr_clear_filter s n af = some p → MapsPres s p.1 := by
  intro p hp
  rw [filtmgr_clear_filter] at hp
  split at hp
  · simp only [Option.some.injEq] at hp
    rw [← hp]
    exact mapsPres_take s s.latest n
  · split at hp
    · simp only [Option.some.injEq] at hp
      rw [← hp]
      exact mapsPres_take s s.latest n
    · cases af with
      | true =>
        simp [create_new_version] at hp
      | false =>
        simp only [create_new_version, Bool.false_eq_true, if_false,
          Option.some.injEq] at hp
        rw [← hp]
        refine mapsPres_trans ?_ (mapsPres_latest_update _ _)
        refine mapsPres_trans ?_ (mapsPres_setVersion_samemap _ _ _ rfl)
        refine mapsPres_setVersion_ge s _ _ _ ?_ (by simp [take_filter_fst])
        exact mapsPres_trans
          (mapsPres_trans (mapsPres_take s s.latest n) (mapsPres_setWrapper _ _ _))
          (mapsPres_append _ _)

theorem mapsPres_thread_step (s : MgrState) (lv : Nat) :
    MapsPres s (filtmgr_thread_step s lv).1 := by
  rw [filtmgr_thread_step]
  split
  · exact mapsPres_refl s
  · split
    · rename_i p hp
      refine mapsPres_trans (mapsPres_of_versions_eq
        (clean_old_versions_versions s s.versions.length p)) ?_
      exact mapsPres_setVersion_samemap _ _ _ rfl
    · exact mapsPres_setVersion_samemap _ _ _ rfl

/-- C5 (amended): the index (`filter_map`) of every version that exists
before an operation — in particular of every version ever published as
latest — is never mutated by any subsequent operation: each read-side call,
enumeration, destructive call and vacuum step leaves the `filter_map` of
every pre-existing version id unchanged, destructive calls making their index
change only in a freshly allocated version.  (The claim as stated is false:
the `deleted` slot of the superseded latest version is assigned by drop and
clear, and the vacuum thread clears the published latest version's `prev`
link.) -/
theorem published_index_immutable (s : MgrState) (i : Nat) (n : String)
    (keys : List String) (buf : List Int) (cfg? : Option BloomConfig)
    (af ef pk : Bool) (lv : Nat) (hi : i < s.versions.length) :
    ((filtmgr_check_keys s n keys buf).1.version i).filter_map =
      (s.version i).filter_map ∧
    ((filtmgr_set_keys s n keys buf).1.version i).filter_map =
      (s.version i).filter_map ∧
    ((filtmgr_flush_filter s n).1.version i).filter_map =
      (s.version i).filter_map ∧
    ((filtmgr_unmap_filter s n).1.version i).filter_map =
      (s.version i).filter_map ∧
    ((filtmgr_list_filters s).1.version i).filter_map =
      (s.version i).filter_map ∧
    ((filtmgr_list_cold_filters s).1.version i).filter_map =
      (s.version i).filter_map ∧
    (∀ p, filtmgr_create_filter s n cfg? af ef pk = some p →
      (p.1.version i).filter_map = (s.version i).filter_map) ∧
    (∀ p, filtmgr_drop_filter s n af = some p →
      (p.1.version i).filter_map = (s.version i).filter_map) ∧
    (∀ p, filtmgr_clear_filter s n af = some p →
      (p.1.version i).filter_map = (s.version i).filter_map) ∧
    ((filtmgr_thread_step s lv).1.version i).filter_map =
      (s.version i).filter_map := by
  refine ⟨(mapsPres_check s n keys buf).2 i hi,
    (mapsPres_set s n keys buf).2 i hi,
    (mapsPres_flush s n).2 i hi,
    (mapsPres_unmap s n).2 i hi,
    (mapsPres_list s).2 i hi,
    (mapsPres_list_cold s).2 i hi,
    fun p hp => (mapsPres_create s n cfg? af ef pk p hp).2 i hi,
    fun p hp => (mapsPres_drop s n af p hp).2 i hi,
    fun p hp => (mapsPres_clear s n af p hp).2 i hi,
    (mapsPres_thread_step s lv).2 i hi⟩

/-- C5 witness: the amended immutability theorem instantiated on the concrete
state of the counterexample, including a successful drop. -/
theorem published_index_immutable_witness :
    0 < exS4.versions.length ∧
    ((filtmgr_check_keys exS4 "a" ["x"] [9]).1.version 0).filter_map =
      (exS4.version 0).filter_map ∧
    (exS5'.version 0).filter_map = (exS4.version 0).filter_map := by
  have h := published_index_immutable exS4 0 "a" ["x"] [9] none false false true
    0 (by decide)
  obtain ⟨h1, -, -, -, -, -, -, h8, -, -⟩ := h
  exact ⟨by decide, h1, h8 (exS5', 0) (by decide)⟩

end Bloomd
